import Mathlib

/-!
Verification of `feed.py` (genfuture/feedscraper): a single-run batch pipeline
that fetches RSS feed entries, filters out already-seen candidates, decodes
their redirect links, scrapes article content, and persists the merged results
as JSON, XML and a processed-link set.

Shallow embedding conventions:
* External services (feedparser, googlenewsdecoder, newspaper) are modelled as
  oracle functions passed in as parameters; per-item failures become `none`.
* Python's `sorted(..., key=k, reverse=True)` is modelled by Mathlib's stable
  `List.insertionSort` with the relation `fun a b => k b ≤ k a`.
* A Python `set` of strings is a `Finset String`; `sorted(set, reverse=True)`
  is the reverse of `Finset.sort (· ≤ ·)`.
* `struct_time` timestamps are represented by their `time.mktime` value, an
  integer; an absent timestamp is `none`.
-/

/-- A feed entry as built by `get_links_from_rss`:
`{"link": entry.link, "published": entry.published_parsed, "title": entry.title}`.
`published` is the `time.mktime` value of the parsed timestamp, `none` when the
entry has no timestamp. -/
structure FeedEntry where
  link : String
  published : Option Int
  title : String
deriving Repr, DecidableEq

/-- The sort key used in `get_links_from_rss`:
`time.mktime(x["published"]) if x["published"] else 0`. -/
def feedKey (e : FeedEntry) : Int :=
  e.published.getD 0

/-- `sorted(links, key=..., reverse=True)`: stable descending sort by key. -/
def sortByFeedKeyDesc (links : List FeedEntry) : List FeedEntry :=
  List.insertionSort (fun a b => feedKey b ≤ feedKey a) links

/-- `get_links_from_rss`, lines 15-26 of feed.py, applied to the entries the
feedparser returned: sort by published date (newest first) and limit to top N. -/
def get_links_from_rss (entries : List FeedEntry) (limit : Nat) : List FeedEntry :=
  (sortByFeedKeyDesc entries).take limit

/-- An article record as built by `scrape_articles_from_links` and stored in
`new_articles.json`.  `publish_date` is `None` or a `strftime("%Y-%m-%d")`
string (loaded stores may hold arbitrary strings); `top_image` is newspaper's
`article.top_image`, the empty string when there is no image. -/
structure Article where
  title : String
  author : List String
  publish_date : Option String
  text : String
  top_image : String
  link : String
deriving Repr, DecidableEq

/-- The novelty filter, lines 200-204 of feed.py:
`[link for link in all_links if not any(article['title'] == link['title'] for
article in existing_articles) and link['link'] not in processed_links]`. -/
def noveltyFilter (all_links : List FeedEntry) (existing_articles : List Article)
    (processed_links : Finset String) : List FeedEntry :=
  all_links.filter fun l =>
    !(existing_articles.any fun a => a.title == l.title) && !(l.link ∈ processed_links)

/-- The predicate of spec §4.2 in its own words: keep an entry when its title
equals no stored article's title and its link is not in the processed set. -/
def specNovel (existing_articles : List Article) (processed_links : Finset String)
    (l : FeedEntry) : Prop :=
  (∀ a ∈ existing_articles, a.title ≠ l.title) ∧ l.link ∉ processed_links

instance (existing_articles : List Article) (processed_links : Finset String)
    (l : FeedEntry) : Decidable (specNovel existing_articles processed_links l) := by
  unfold specNovel
  infer_instance

section FeedSorted

private instance feedTotal :
    IsTotal FeedEntry (fun a b => feedKey b ≤ feedKey a) :=
  ⟨fun a b => (le_total (feedKey b) (feedKey a)).elim Or.inl Or.inr⟩

private instance feedTrans :
    IsTrans FeedEntry (fun a b => feedKey b ≤ feedKey a) :=
  ⟨fun _ _ _ h h' => le_trans h' h⟩

theorem sortByFeedKeyDesc_sorted (links : List FeedEntry) :
    (sortByFeedKeyDesc links).Sorted (fun a b => feedKey b ≤ feedKey a) :=
  List.sorted_insertionSort _ links

theorem sortByFeedKeyDesc_perm (links : List FeedEntry) :
    List.Perm (sortByFeedKeyDesc links) links :=
  List.perm_insertionSort _ links

end FeedSorted

/-- C4: For every feed-entry sequence, the Feed Fetcher returns at most `limit`
entries, the output is sorted by published timestamp descending, it is a prefix
of a descending-sorted permutation of the input, and an entry lacking a
timestamp is keyed as if its timestamp were `0`. -/
theorem C4_feed_fetcher_bounded_sorted (entries : List FeedEntry) (limit : Nat) :
    (get_links_from_rss entries limit).length ≤ limit ∧
    (get_links_from_rss entries limit).Sorted (fun a b => feedKey b ≤ feedKey a) ∧
    (∃ l, List.Perm l entries ∧ l.Sorted (fun a b => feedKey b ≤ feedKey a) ∧
      get_links_from_rss entries limit = l.take limit) ∧
    (∀ e : FeedEntry, e.published = none → feedKey e = 0) := by
  refine ⟨?_, ?_, ⟨sortByFeedKeyDesc entries, sortByFeedKeyDesc_perm entries,
    sortByFeedKeyDesc_sorted entries, rfl⟩, ?_⟩
  · exact (List.length_take _ _).le.trans (min_le_left _ _)
  · exact (sortByFeedKeyDesc_sorted entries).sublist (List.take_sublist _ _)
  · intro e he
    simp [feedKey, he]

/-- C5: The Novelty Filter returns exactly the filtering of the candidate list
by the spec's predicate (title matches no stored article and link is not in the
processed set); consequently it is an order-preserving subsequence of its input
and an entry with a stored title is excluded regardless of its link. -/
theorem C5_novelty_filter_exact (all_links : List FeedEntry)
    (existing_articles : List Article) (processed_links : Finset String) :
    noveltyFilter all_links existing_articles processed_links =
      all_links.filter (fun l => decide (specNovel existing_articles processed_links l)) ∧
    (noveltyFilter all_links existing_articles processed_links).Sublist all_links ∧
    (∀ l, l ∈ noveltyFilter all_links existing_articles processed_links ↔
      l ∈ all_links ∧ (∀ a ∈ existing_articles, a.title ≠ l.title) ∧
        l.link ∉ processed_links) := by
  have hfun : ∀ l : FeedEntry,
      (!(existing_articles.any fun a => a.title == l.title) && !(l.link ∈ processed_links)) =
        decide (specNovel existing_articles processed_links l) := by
    intro l
    rw [Bool.eq_iff_iff]
    simp [specNovel, List.any_eq_true]
  constructor
  · unfold noveltyFilter
    exact List.filter_congr fun l _ => hfun l
  constructor
  · exact List.filter_sublist _
  · intro l
    unfold noveltyFilter
    rw [List.mem_filter, hfun l]
    simp [specNovel]

/-! ## Date parsing and the merge/sort step (feed.py lines 240-248)

The sort key is
`datetime.strptime(x["publish_date"], "%Y-%m-%d") if x.get("publish_date") else datetime.min`.
`strptime` with format `%Y-%m-%d` accepts a 4-digit year, a 1-2 digit month
and a 1-2 digit day separated by hyphens, fully consuming the string, and
validates the calendar date (month 1-12, day within the month, year at least
1); on any other string it raises `ValueError`, which is not caught anywhere,
so the whole `sort` call and the run abort.  A falsy `publish_date` (missing
key, `None`, or the empty string) yields `datetime.min`, i.e. year 1, month 1,
day 1.  Since parsed dates always satisfy year <= 9999, month <= 12, day <= 31,
comparing `datetime` values is comparing `year * 10000 + month * 100 + day`. -/

/-- Gregorian leap-year rule used by `datetime`'s calendar validation. -/
def isLeapYear (y : Nat) : Bool :=
  (y % 4 == 0 && y % 100 != 0) || (y % 400 == 0)

/-- Number of days in a month, as validated by `datetime.strptime`. -/
def daysInMonth (y m : Nat) : Nat :=
  if m == 2 then (if isLeapYear y then 29 else 28)
  else if m == 4 || m == 6 || m == 9 || m == 11 then 30
  else 31

/-- Split a character list at every hyphen (the separator structure of the
`%Y-%m-%d` format string). -/
def splitOnDash : List Char → List (List Char)
  | [] => [[]]
  | c :: cs =>
    if c = '-' then [] :: splitOnDash cs
    else match splitOnDash cs with
      | [] => [[c]]
      | p :: ps => (c :: p) :: ps

/-- Decimal value of a nonempty all-digit character group (the `\d+` pieces the
strptime regex captures); `none` on any other group. -/
def decDigits? (cs : List Char) : Option Nat :=
  if !cs.isEmpty && cs.all Char.isDigit then
    some (cs.foldl (fun n c => n * 10 + (c.toNat - 48)) 0)
  else none

/-- `datetime.strptime(s, "%Y-%m-%d")`: `some (y, m, d)` on the strings the
format accepts (4-digit year, 1-2 digit month and day, valid calendar date),
`none` where Python raises `ValueError`. -/
def strptimeYMD (s : String) : Option (Nat × Nat × Nat) :=
  match splitOnDash s.toList with
  | [ys, ms, ds] =>
    if ys.length == 4 && (1 ≤ ms.length && ms.length ≤ 2)
        && (1 ≤ ds.length && ds.length ≤ 2) then
      match decDigits? ys, decDigits? ms, decDigits? ds with
      | some y, some m, some d =>
        if 1 ≤ y && (1 ≤ m && m ≤ 12) && (1 ≤ d && d ≤ daysInMonth y m) then
          some (y, m, d)
        else none
      | _, _, _ => none
    else none
  | _ => none

/-- Whether the sort key of feed.py line 244 can be computed for an article
without raising: the `publish_date` is falsy (absent or empty) or parses. -/
def dateOk (a : Article) : Bool :=
  match a.publish_date with
  | none => true
  | some s => s == "" || (strptimeYMD s).isSome

/-- The sort key of feed.py line 244, encoded as a natural number preserving
the `datetime` order (`datetime.min` encodes to `10101`, the smallest value
any date can encode to). -/
def dateKeyNat (a : Article) : Nat :=
  match a.publish_date with
  | none => 10101
  | some s =>
    if s = "" then 10101
    else match strptimeYMD s with
      | some (y, m, d) => y * 10000 + m * 100 + d
      | none => 10101

/-- Stable descending sort by date key: `all_articles.sort(key=..., reverse=True)`. -/
def sortByDateDesc (arts : List Article) : List Article :=
  List.insertionSort (fun a b => dateKeyNat b ≤ dateKeyNat a) arts

/-- The merge step of feed.py lines 240-248: concatenate existing and new
articles, sort by date descending, truncate to `limit`.  `none` models the
uncaught `ValueError` that aborts the sort (and the run) when some stored
`publish_date` string is present, non-empty and malformed. -/
def mergeArticles (existing newArts : List Article) (limit : Nat) :
    Option (List Article) :=
  if (existing ++ newArts).all dateOk then
    some ((sortByDateDesc (existing ++ newArts)).take limit)
  else none

section DateSorted

private instance dateTotal :
    IsTotal Article (fun a b => dateKeyNat b ≤ dateKeyNat a) :=
  ⟨fun a b => (le_total (dateKeyNat b) (dateKeyNat a)).elim Or.inl Or.inr⟩

private instance dateTrans :
    IsTrans Article (fun a b => dateKeyNat b ≤ dateKeyNat a) :=
  ⟨fun _ _ _ h h' => le_trans h' h⟩

theorem sortByDateDesc_sorted (arts : List Article) :
    (sortByDateDesc arts).Sorted (fun a b => dateKeyNat b ≤ dateKeyNat a) :=
  List.sorted_insertionSort _ arts

theorem sortByDateDesc_perm (arts : List Article) :
    List.Perm (sortByDateDesc arts) arts :=
  List.perm_insertionSort _ arts

end DateSorted

theorem strptimeYMD_bounds {s : String} {y m d : Nat}
    (h : strptimeYMD s = some (y, m, d)) :
    1 ≤ y ∧ 1 ≤ m ∧ m ≤ 12 ∧ 1 ≤ d ∧ d ≤ daysInMonth y m := by
  unfold strptimeYMD at h
  split at h
  · split at h
    · split at h
      next hcond =>
        split at h
        next hb =>
          simp only [Option.some.injEq, Prod.mk.injEq] at h
          obtain ⟨h1, h2, h3⟩ := h
          subst h1; subst h2; subst h3
          simp only [Bool.and_eq_true, decide_eq_true_eq] at hb
          exact ⟨hb.1.1, hb.1.2.1, hb.1.2.2, hb.2.1, hb.2.2⟩
        · exact absurd h (by simp)
      all_goals exact absurd h (by simp)
    · exact absurd h (by simp)
  · exact absurd h (by simp)

/-- Every article's date key is at least `10101`, the key of `datetime.min`. -/
theorem dateKeyNat_min_le (b : Article) : 10101 ≤ dateKeyNat b := by
  unfold dateKeyNat
  split
  · exact le_refl _
  · split
    · exact le_refl _
    · split
      next y m d hp =>
        obtain ⟨hy, hm, _, hd, _⟩ := strptimeYMD_bounds hp
        omega
      · exact le_refl _

/-- A stored article whose `publish_date` is present, non-empty and not a valid
`YYYY-MM-DD` date (month 13). -/
def badDateArticle : Article :=
  { title := "Bad date", author := [], publish_date := some "2024-13-01",
    text := "", top_image := "", link := "http://example.com/bad" }

/-- An article with no publish date. -/
def emptyDateArticle : Article :=
  { title := "No date", author := [], publish_date := none,
    text := "body", top_image := "", link := "http://example.com/nodate" }

/-- An article with a well-formed publish date and all optional fields set. -/
def datedArticle : Article :=
  { title := "Dated", author := ["A. Writer"], publish_date := some "2024-05-06",
    text := "Some text", top_image := "http://example.com/img.png",
    link := "http://example.com/dated" }

/-- C2 counterexample: with one stored article whose `publish_date` string is
malformed (`"2024-13-01"`), the merge/sort step raises an uncaught error and
the run aborts (`none`), instead of treating the date as oldest, catching the
failure at the item boundary and dropping only that item. -/
theorem C2_counterexample_merge_aborts :
    mergeArticles [badDateArticle] [] 50 = none := by decide

/-- C2 (amended): the merge sort key treats an absent or empty stored
`publish_date` as the oldest possible date; but a present, non-empty date
string not in `YYYY-MM-DD` form is not caught anywhere — the merge step
raises, aborting the whole run, exactly when some article fails date parsing,
and no item is dropped. -/
theorem C2_amended_date_parse (existing newArts : List Article) (limit : Nat) :
    (mergeArticles existing newArts limit = none ↔
      ∃ a ∈ existing ++ newArts, dateOk a = false) ∧
    (∀ a : Article, (a.publish_date = none ∨ a.publish_date = some "") →
      ∀ b : Article, dateKeyNat a ≤ dateKeyNat b) := by
  constructor
  · constructor
    · intro hnone
      unfold mergeArticles at hnone
      split at hnone
      · exact absurd hnone (by simp)
      next hall =>
        rw [List.all_eq_true] at hall
        push_neg at hall
        obtain ⟨a, ha, hfa⟩ := hall
        exact ⟨a, ha, by simpa using hfa⟩
    · rintro ⟨a, ha, hfa⟩
      unfold mergeArticles
      split
      next hall =>
        rw [List.all_eq_true] at hall
        have hta := hall a ha
        rw [hfa] at hta
        exact absurd hta (by simp)
      · rfl
  · rintro a (h | h) b
    · have hk : dateKeyNat a = 10101 := by simp [dateKeyNat, h]
      rw [hk]
      exact dateKeyNat_min_le b
    · have hk : dateKeyNat a = 10101 := by simp [dateKeyNat, h]
      rw [hk]
      exact dateKeyNat_min_le b

/-- C2 amended, applied at concrete inputs: the malformed-date store makes the
merge abort, and an absent date is keyed no later than a 2024 date. -/
theorem C2_amended_date_parse_witness :
    mergeArticles [badDateArticle] [] 50 = none ∧
    dateKeyNat emptyDateArticle ≤ dateKeyNat datedArticle :=
  ⟨(C2_amended_date_parse [badDateArticle] [] 50).1.mpr
      ⟨badDateArticle, by simp, by decide⟩,
    (C2_amended_date_parse [] [] 0).2 emptyDateArticle (Or.inl rfl) datedArticle⟩

/-- C3: whenever the merge step completes without a date-parse abort, its
output is the first `limit` entries of the concatenation of the existing store
and the new articles sorted by publish date descending — articles with an
absent date carrying the minimum possible key, hence sorting last — so the
written store never exceeds `limit` entries. -/
theorem C3_merge_sort_truncate (existing newArts : List Article) (limit : Nat)
    (out : List Article) (h : mergeArticles existing newArts limit = some out) :
    (∃ l, List.Perm l (existing ++ newArts) ∧
      l.Sorted (fun a b => dateKeyNat b ≤ dateKeyNat a) ∧ out = l.take limit) ∧
    out.length ≤ limit ∧
    (∀ a : Article, a.publish_date = none → ∀ b : Article,
      dateKeyNat a ≤ dateKeyNat b) := by
  unfold mergeArticles at h
  split at h
  · simp only [Option.some.injEq] at h
    subst h
    refine ⟨⟨sortByDateDesc (existing ++ newArts), sortByDateDesc_perm _,
      sortByDateDesc_sorted _, rfl⟩, ?_, ?_⟩
    · exact (List.length_take _ _).le.trans (min_le_left _ _)
    · intro a ha b
      have hk : dateKeyNat a = 10101 := by simp [dateKeyNat, ha]
      rw [hk]
      exact dateKeyNat_min_le b
  · exact absurd h (by simp)

/-- C3 applied at a concrete merge of a dated and an undated article. -/
theorem C3_merge_sort_truncate_witness :
    (∃ l, List.Perm l ([datedArticle] ++ [emptyDateArticle]) ∧
      l.Sorted (fun a b => dateKeyNat b ≤ dateKeyNat a) ∧
      [datedArticle, emptyDateArticle] = l.take 50) ∧
    ([datedArticle, emptyDateArticle] : List Article).length ≤ 50 ∧
    (∀ a : Article, a.publish_date = none → ∀ b : Article,
      dateKeyNat a ≤ dateKeyNat b) :=
  C3_merge_sort_truncate [datedArticle] [emptyDateArticle] 50
    [datedArticle, emptyDateArticle] (by decide)

/-! ## XML export: `save_articles_to_xml` (feed.py lines 79-140)

Each article becomes one `<item>` element.  `<title>`, `<link>` and
`<description>` are always present; `<pubDate>`, `<author>` and
`<media:content>` are created only under Python truthiness tests
`if article["publish_date"]:`, `if article["author"]:`,
`if article["top_image"]:`.  The description text is the f-string
`'<![CDATA[' + text[:500] + '...' + ']]>'` (literal CDATA markers around the
first 500 characters of the text followed by an ellipsis). -/

/-- One `<item>` element as built by `save_articles_to_xml`; an optional child
is `none` exactly when the code's truthiness test skips creating it. -/
structure XmlItem where
  title : String
  link : String
  description : String
  pubDate : Option String
  author : Option String
  mediaContentUrl : Option String
deriving Repr, DecidableEq

/-- The per-article `<item>` construction of `save_articles_to_xml`. -/
def articleToXmlItem (a : Article) : XmlItem :=
  { title := a.title
    link := a.link
    description := "<![CDATA[" ++ a.text.take 500 ++ "..." ++ "]]>"
    pubDate := match a.publish_date with
      | none => none
      | some s => if s = "" then none else some s
    author := if a.author.isEmpty then none
      else some (String.intercalate ", " a.author)
    mediaContentUrl := if a.top_image = "" then none else some a.top_image }

/-- `save_articles_to_xml` restricted to the item list it appends to the
channel. -/
def save_articles_to_xml (articles : List Article) : List XmlItem :=
  articles.map articleToXmlItem

theorem string_take_length_le (s : String) (n : Nat) : (s.take n).length ≤ n := by
  rw [String.take_eq]
  show (s.data.take n).length ≤ n
  exact (List.length_take _ _).le.trans (min_le_left _ _)

/-- C6: for every exported article whose `publish_date` field respects the data
model (a date string is never empty), the `pubDate`, `author` and
`media:content` children are emitted exactly when the corresponding field is
present (`publish_date` set, `author` list nonempty, `top_image` nonempty), and
the description is the first at-most-500 characters of the text wrapped in
literal CDATA markers with a literal `...` suffix before the closing marker. -/
theorem C6_xml_item_shape (a : Article) (hpd : a.publish_date ≠ some "") :
    ((articleToXmlItem a).pubDate = a.publish_date) ∧
    ((articleToXmlItem a).pubDate.isSome ↔ a.publish_date.isSome) ∧
    ((articleToXmlItem a).author.isSome ↔ a.author ≠ []) ∧
    ((articleToXmlItem a).mediaContentUrl.isSome ↔ a.top_image ≠ "") ∧
    (∃ t, t = a.text.take 500 ∧ t.length ≤ 500 ∧
      (articleToXmlItem a).description = "<![CDATA[" ++ t ++ "..." ++ "]]>") := by
  have hpdEq : (articleToXmlItem a).pubDate = a.publish_date := by
    unfold articleToXmlItem
    cases h : a.publish_date with
    | none => simp
    | some s =>
      have hs : s ≠ "" := fun hemp => hpd (hemp ▸ h)
      simp [hs]
  refine ⟨hpdEq, by rw [hpdEq], ?_, ?_, ?_⟩
  · unfold articleToXmlItem
    by_cases h : a.author.isEmpty
    · simp [h, List.isEmpty_iff.mp h]
    · have h' : a.author ≠ [] := fun hnil => h (by simp [hnil])
      simp [h, h']
  · unfold articleToXmlItem
    by_cases h : a.top_image = "" <;> simp [h]
  · exact ⟨a.text.take 500, rfl, string_take_length_le a.text 500, rfl⟩

/-- C6 applied to a concrete article with every optional field present and to
one with every optional field absent. -/
theorem C6_xml_item_shape_witness :
    ((articleToXmlItem datedArticle).pubDate = datedArticle.publish_date ∧
      ((articleToXmlItem datedArticle).author.isSome ↔ datedArticle.author ≠ [])) ∧
    ((articleToXmlItem emptyDateArticle).pubDate.isSome ↔
      emptyDateArticle.publish_date.isSome) :=
  ⟨⟨(C6_xml_item_shape datedArticle (by decide)).1,
    (C6_xml_item_shape datedArticle (by decide)).2.2.1⟩,
    (C6_xml_item_shape emptyDateArticle (by decide)).2.1⟩

/-! ## Processed-link retention cap (feed.py lines 231-236)

`if len(processed_links) > LIMIT_LINKS * 2:`
`    processed_links = set(sorted(processed_links, reverse=True)[:LIMIT_LINKS])`

`sorted(set, reverse=True)` on a set of strings is the reverse of the
ascending lexicographic sort of its (distinct) elements. -/

/-- The descending lexicographic listing of a processed-link set,
`sorted(processed_links, reverse=True)`. -/
def descLinks (s : Finset String) : List String :=
  (s.sort (· ≤ ·)).reverse

/-- The retention cap of feed.py lines 231-233. -/
def capProcessedLinks (s : Finset String) (limit : Nat) : Finset String :=
  if limit * 2 < s.card then ((descLinks s).take limit).toFinset else s

theorem descLinks_nodup (s : Finset String) : (descLinks s).Nodup :=
  List.nodup_reverse.mpr (Finset.sort_nodup _ s)

theorem descLinks_length (s : Finset String) : (descLinks s).length = s.card := by
  rw [descLinks, List.length_reverse, Finset.length_sort]

theorem descLinks_mem {s : Finset String} {x : String} :
    x ∈ descLinks s ↔ x ∈ s := by
  rw [descLinks, List.mem_reverse, Finset.mem_sort]

theorem descLinks_sorted (s : Finset String) :
    (descLinks s).Pairwise (fun a b => b ≤ a) := by
  rw [descLinks, List.pairwise_reverse]
  exact Finset.sort_sorted _ s

theorem capProcessedLinks_gt {s : Finset String} {limit : Nat}
    (h : limit * 2 < s.card) :
    capProcessedLinks s limit = ((descLinks s).take limit).toFinset ∧
    (capProcessedLinks s limit).card = limit ∧
    capProcessedLinks s limit ⊆ s ∧
    (∀ x ∈ capProcessedLinks s limit, ∀ y ∈ s,
      y ∉ capProcessedLinks s limit → y < x) := by
  have hdef : capProcessedLinks s limit = ((descLinks s).take limit).toFinset := by
    unfold capProcessedLinks
    rw [if_pos h]
  have hnd : (descLinks s).Nodup := descLinks_nodup s
  have htake_nd : ((descLinks s).take limit).Nodup :=
    hnd.sublist (List.take_sublist _ _)
  have hlim : limit ≤ s.card := by omega
  have hlen : ((descLinks s).take limit).length = limit := by
    rw [List.length_take, descLinks_length]
    exact min_eq_left hlim
  refine ⟨hdef, ?_, ?_, ?_⟩
  · rw [hdef, List.toFinset_card_of_nodup htake_nd, hlen]
  · intro x hx
    rw [hdef, List.mem_toFinset] at hx
    exact descLinks_mem.mp (List.take_subset _ _ hx)
  · intro x hx y hy hyn
    rw [hdef, List.mem_toFinset] at hx hyn
    have hyl : y ∈ (descLinks s).take limit ++ (descLinks s).drop limit := by
      rw [List.take_append_drop]
      exact descLinks_mem.mpr hy
    have hydrop : y ∈ (descLinks s).drop limit := by
      rcases List.mem_append.mp hyl with h' | h'
      · exact absurd h' hyn
      · exact h'
    have hsplit : ((descLinks s).take limit ++ (descLinks s).drop limit).Pairwise
        (fun a b => b ≤ a) := by
      rw [List.take_append_drop]
      exact descLinks_sorted s
    have hle : y ≤ x := (List.pairwise_append.mp hsplit).2.2 x hx y hydrop
    have hnodup : ((descLinks s).take limit ++ (descLinks s).drop limit).Nodup := by
      rw [List.take_append_drop]
      exact hnd
    have hne : y ≠ x := by
      intro he
      subst he
      exact List.disjoint_of_nodup_append hnodup hx hydrop
    exact lt_of_le_of_ne hle hne

/-- C7: the retention cap leaves the set unchanged when its size is at most
2×limit, shrinks it (to exactly `limit` entries, hence a different set) when
its size exceeds 2×limit, and in either case the persisted set has at most
2×limit entries. -/
theorem C7_cap_iff_and_bound (s : Finset String) (limit : Nat) :
    (s.card ≤ limit * 2 → capProcessedLinks s limit = s) ∧
    (limit * 2 < s.card →
      (capProcessedLinks s limit).card = limit ∧ capProcessedLinks s limit ≠ s) ∧
    (capProcessedLinks s limit).card ≤ limit * 2 := by
  by_cases h : limit * 2 < s.card
  · obtain ⟨_, hcard, _, _⟩ := capProcessedLinks_gt h
    refine ⟨fun hle => absurd h (not_lt.mpr hle), fun _ => ⟨hcard, ?_⟩, ?_⟩
    · intro he
      rw [he] at hcard
      omega
    · omega
  · have he : capProcessedLinks s limit = s := by
      unfold capProcessedLinks
      rw [if_neg h]
    exact ⟨fun _ => he, fun hlt => absurd hlt h, by rw [he]; omega⟩

/-- C7 applied to a three-link set with limit 1: the cap triggers, the
persisted set has one entry, and the bound holds. -/
theorem C7_cap_iff_and_bound_witness :
    ((capProcessedLinks {"a", "b", "c"} 1).card = 1 ∧
      capProcessedLinks {"a", "b", "c"} 1 ≠ {"a", "b", "c"}) ∧
    (capProcessedLinks {"a", "b", "c"} 1).card ≤ 1 * 2 :=
  ⟨(C7_cap_iff_and_bound {"a", "b", "c"} 1).2.1 (by decide),
    (C7_cap_iff_and_bound {"a", "b", "c"} 1).2.2⟩

/-- C10: whenever the cap triggers (set size strictly greater than 2×limit),
the result is exactly the `limit` lexicographically greatest links of the old
set: a subset of the old set with exactly `limit` entries (not 2×limit) in
which every kept link is strictly greater, as a string, than every evicted
link. -/
theorem C10_cap_keeps_lex_greatest (s : Finset String) (limit : Nat)
    (h : limit * 2 < s.card) :
    capProcessedLinks s limit ⊆ s ∧
    (capProcessedLinks s limit).card = limit ∧
    ∀ x ∈ capProcessedLinks s limit, ∀ y ∈ s,
      y ∉ capProcessedLinks s limit → y < x := by
  obtain ⟨_, hcard, hsub, hgt⟩ := capProcessedLinks_gt h
  exact ⟨hsub, hcard, hgt⟩

/-- C10 applied to the concrete set `{"a", "b", "c"}` with limit 1. -/
theorem C10_cap_keeps_lex_greatest_witness :
    capProcessedLinks {"a", "b", "c"} 1 ⊆ {"a", "b", "c"} ∧
    (capProcessedLinks {"a", "b", "c"} 1).card = 1 ∧
    ∀ x ∈ capProcessedLinks {"a", "b", "c"} 1, ∀ y ∈ ({"a", "b", "c"} : Finset String),
      y ∉ capProcessedLinks {"a", "b", "c"} 1 → y < x :=
  C10_cap_keeps_lex_greatest {"a", "b", "c"} 1 (by decide)

/-! ## The main pipeline (feed.py lines 183-274)

The two network stages are oracles: `decode` models `new_decoderv1` (`none`
covers both a raised exception and a returned unsuccessful status — either way
the item is dropped with a printed message), `scrape` models the newspaper
download+parse (`none` is a raised exception, item dropped). -/

/-- `decode_google_news_links` (feed.py lines 29-45): keep each entry whose
link decodes, replacing the link by the decoded URL. -/
def decode_google_news_links (decode : String → Option String)
    (links : List FeedEntry) : List FeedEntry :=
  links.filterMap fun item =>
    (decode item.link).map fun u => { item with link := u }

/-- `scrape_articles_from_links` (feed.py lines 48-65): extract an article per
decodable link; the stored `link` field is the input item's (resolved) link. -/
def scrape_articles_from_links (scrape : String → Option Article)
    (links : List FeedEntry) : List Article :=
  links.filterMap fun item =>
    (scrape item.link).map fun a => { a with link := item.link }

/-- The files a run writes: `none` means the file is left untouched. -/
structure RunOutput where
  savedProcessedLinks : Option (Finset String)
  savedArticlesJson : Option (List Article)
  savedArticlesXml : Option (List XmlItem)
deriving DecidableEq

/-- The `__main__` block of feed.py (lines 183-274): fetch and sort the feed,
filter novel candidates, exit early when there are none, decode, scrape, and
only when at least one article was scraped: add every filtered candidate's
link to the processed set, cap it, persist it, then merge/sort/truncate the
articles and persist JSON and XML.  A date-parse error in the merge sort
aborts the run after the processed-link file was already written. -/
def runMain (entries : List FeedEntry) (decode : String → Option String)
    (scrape : String → Option Article) (existing_articles : List Article)
    (processed_links : Finset String) (limit : Nat) : RunOutput :=
  let all_links := get_links_from_rss entries limit
  let new_links := noveltyFilter all_links existing_articles processed_links
  if new_links.isEmpty then ⟨none, none, none⟩
  else
    let decoded_links := decode_google_news_links decode new_links
    if decoded_links.isEmpty then ⟨none, none, none⟩
    else
      let new_articles := scrape_articles_from_links scrape decoded_links
      if new_articles.isEmpty then ⟨none, none, none⟩
      else
        let processed2 := processed_links ∪ (new_links.map FeedEntry.link).toFinset
        let processed3 := capProcessedLinks processed2 limit
        match mergeArticles existing_articles new_articles limit with
        | none => ⟨some processed3, none, none⟩
        | some all_articles =>
          ⟨some processed3, some all_articles,
            some (save_articles_to_xml all_articles)⟩

/-- A feed entry whose Google News link decodes in the scenario oracles. -/
def feedEntryA : FeedEntry :=
  { link := "https://news.google.com/a", published := some 100, title := "A story" }

/-- A feed entry whose Google News link fails to decode in the scenario
oracles. -/
def feedEntryB : FeedEntry :=
  { link := "https://news.google.com/b", published := some 50, title := "B story" }

/-- Decoder oracle: entry A decodes, everything else fails. -/
def decodeAOnly : String → Option String := fun s =>
  if s = "https://news.google.com/a" then some "https://example.com/a" else none

/-- Scraper oracle: the resolved URL of entry A extracts, everything else
fails. -/
def scrapeAOnly : String → Option Article := fun s =>
  if s = "https://example.com/a" then
    some { title := "A story", author := ["A. Writer"],
           publish_date := some "2024-05-06", text := "text of A",
           top_image := "", link := s }
  else none

/-- C1 counterexample: a run with two filtered candidates that both fail link
decoding writes nothing at all — in particular neither original link is added
to the persisted processed-link set, contradicting "the link of every filtered
candidate is added to ProcessedLinkSet regardless of whether link resolution
or content extraction later succeeded for it". -/
theorem C1_counterexample_no_links_persisted :
    runMain [feedEntryA, feedEntryB] (fun _ => none) (fun _ => none) [] ∅ 50 =
      ⟨none, none, none⟩ := by decide

/-- C1 (amended): provided at least one filtered candidate survives decoding
and at least one article is scraped, the links of all filtered candidates —
including those whose decoding or extraction failed — are added to the
processed-link set, and the capped result is persisted.  (When decoding or
extraction yields nothing, the set is not updated at all.) -/
theorem C1_amended_links_added (entries : List FeedEntry)
    (decode : String → Option String) (scrape : String → Option Article)
    (existing_articles : List Article) (processed_links : Finset String)
    (limit : Nat) (new_links : List FeedEntry)
    (hnl : new_links = noveltyFilter (get_links_from_rss entries limit)
      existing_articles processed_links)
    (hnew : new_links ≠ [])
    (hdec : decode_google_news_links decode new_links ≠ [])
    (hscr : scrape_articles_from_links scrape
      (decode_google_news_links decode new_links) ≠ []) :
    (runMain entries decode scrape existing_articles processed_links
        limit).savedProcessedLinks =
      some (capProcessedLinks
        (processed_links ∪ (new_links.map FeedEntry.link).toFinset) limit) ∧
    ∀ l ∈ new_links,
      l.link ∈ processed_links ∪ (new_links.map FeedEntry.link).toFinset := by
  constructor
  · subst hnl
    simp only [runMain]
    rw [if_neg (by simpa using hnew), if_neg (by simpa using hdec),
      if_neg (by simpa using hscr)]
    cases mergeArticles existing_articles
        (scrape_articles_from_links scrape
          (decode_google_news_links decode
            (noveltyFilter (get_links_from_rss entries limit) existing_articles
              processed_links))) limit with
    | none => rfl
    | some all_articles => rfl
  · intro l hl
    exact Finset.mem_union_right _
      (List.mem_toFinset.mpr (List.mem_map.mpr ⟨l, hl, rfl⟩))

/-- C1 amended, applied to the two-candidate scenario in which candidate B
fails link decoding while candidate A resolves and extracts: the persisted
set still gains both original links. -/
theorem C1_amended_links_added_witness :
    (runMain [feedEntryA, feedEntryB] decodeAOnly scrapeAOnly [] ∅
        50).savedProcessedLinks =
      some (capProcessedLinks
        (∅ ∪ ((noveltyFilter (get_links_from_rss [feedEntryA, feedEntryB] 50)
          [] ∅).map FeedEntry.link).toFinset) 50) ∧
    ∀ l ∈ noveltyFilter (get_links_from_rss [feedEntryA, feedEntryB] 50) [] ∅,
      l.link ∈ ∅ ∪ ((noveltyFilter (get_links_from_rss [feedEntryA, feedEntryB]
        50) [] ∅).map FeedEntry.link).toFinset :=
  C1_amended_links_added [feedEntryA, feedEntryB] decodeAOnly scrapeAOnly [] ∅
    50 _ rfl (by decide) (by decide) (by decide)

/-- Direct evaluation of the scenario run: the processed-link set persisted by
the run holds both original links even though only candidate A was extracted. -/
theorem scenario_both_links_persisted :
    (runMain [feedEntryA, feedEntryB] decodeAOnly scrapeAOnly [] ∅
        50).savedProcessedLinks =
      some {"https://news.google.com/a", "https://news.google.com/b"} := by
  decide

/-- C8: if the Novelty Filter yields zero candidates, or content extraction
produces zero new articles, the run writes nothing: the article store JSON,
the XML export and the processed-link set are all left untouched. -/
theorem C8_no_writes_when_nothing_new (entries : List FeedEntry)
    (decode : String → Option String) (scrape : String → Option Article)
    (existing_articles : List Article) (processed_links : Finset String)
    (limit : Nat)
    (h : noveltyFilter (get_links_from_rss entries limit) existing_articles
        processed_links = [] ∨
      scrape_articles_from_links scrape
        (decode_google_news_links decode
          (noveltyFilter (get_links_from_rss entries limit) existing_articles
            processed_links)) = []) :
    runMain entries decode scrape existing_articles processed_links limit =
      ⟨none, none, none⟩ := by
  simp only [runMain]
  rcases h with h | h
  · rw [if_pos (by simpa using h)]
  · by_cases h1 : (noveltyFilter (get_links_from_rss entries limit)
        existing_articles processed_links).isEmpty
    · rw [if_pos h1]
    · rw [if_neg h1]
      by_cases h2 : (decode_google_news_links decode
          (noveltyFilter (get_links_from_rss entries limit) existing_articles
            processed_links)).isEmpty
      · rw [if_pos h2]
      · rw [if_neg h2, if_pos (by simpa using h)]

/-- C8 applied to a feed whose single entry's title matches a stored article:
the Novelty Filter yields zero candidates and nothing is written. -/
theorem C8_no_writes_when_nothing_new_witness :
    runMain [feedEntryA] (fun _ => none) (fun _ => none)
      [{ title := "A story", author := [], publish_date := none, text := "old",
         top_image := "", link := "http://example.com/old" }] ∅ 50 =
      ⟨none, none, none⟩ :=
  C8_no_writes_when_nothing_new [feedEntryA] (fun _ => none) (fun _ => none)
    [{ title := "A story", author := [], publish_date := none, text := "old",
       top_image := "", link := "http://example.com/old" }] ∅ 50
    (Or.inl (by decide))

/-! ## JSON store round trip (feed.py lines 149-155 and 250-254)

`json.dump(all_articles, f, ensure_ascii=False, indent=4)` writes the article
list; `load_existing_articles` reads it back with `json.load`.  The JSON
values involved are strings, lists of strings, `null` and objects, which the
text round-trips exactly; we model the document as an abstract JSON tree and
the program's field accesses (`x["title"]`, `x["author"]`,
`x.get("publish_date")`, ...) as keyed lookups. -/

/-- Abstract JSON values (the fragment this program serializes). -/
inductive Json where
  | null : Json
  | str : String → Json
  | arr : List Json → Json
  | obj : List (String × Json) → Json

/-- `json.dump` of one article dict, keys in the construction order of
`scrape_articles_from_links`. -/
def articleToJson (a : Article) : Json :=
  Json.obj [("title", Json.str a.title),
    ("author", Json.arr (a.author.map Json.str)),
    ("publish_date", match a.publish_date with
      | some s => Json.str s
      | none => Json.null),
    ("text", Json.str a.text),
    ("top_image", Json.str a.top_image),
    ("link", Json.str a.link)]

/-- `json.dump` of the whole article store. -/
def storeToJson (arts : List Article) : Json :=
  Json.arr (arts.map articleToJson)

/-- A loaded value used as a string field. -/
def jsonStr? : Json → Option String
  | Json.str s => some s
  | _ => none

/-- Traverse a list with a fallible reader, failing if any element fails. -/
def mapOption (f : Json → Option String) : List Json → Option (List String)
  | [] => some []
  | x :: xs => (f x).bind fun y => (mapOption f xs).map fun ys => y :: ys

/-- Traverse a loaded array of article dicts. -/
def mapArticles (f : Json → Option Article) : List Json → Option (List Article)
  | [] => some []
  | x :: xs => (f x).bind fun y => (mapArticles f xs).map fun ys => y :: ys

/-- A loaded value used as a list of author strings. -/
def jsonStrList? : Json → Option (List String)
  | Json.arr js => mapOption jsonStr? js
  | _ => none

/-- A loaded value used as an optional date string (`null` loads as `None`). -/
def jsonOptStr? : Json → Option (Option String)
  | Json.null => some none
  | Json.str s => some (some s)
  | _ => none

/-- Reading one loaded article dict back into the record the pipeline uses. -/
def articleOfJson : Json → Option Article
  | Json.obj kvs => do
    let title ← (kvs.lookup "title").bind jsonStr?
    let author ← (kvs.lookup "author").bind jsonStrList?
    let pd ← (kvs.lookup "publish_date").bind jsonOptStr?
    let text ← (kvs.lookup "text").bind jsonStr?
    let ti ← (kvs.lookup "top_image").bind jsonStr?
    let link ← (kvs.lookup "link").bind jsonStr?
    some { title := title, author := author, publish_date := pd, text := text,
           top_image := ti, link := link }
  | _ => none

/-- `load_existing_articles` on a loaded document. -/
def storeOfJson : Json → Option (List Article)
  | Json.arr js => mapArticles articleOfJson js
  | _ => none

theorem mapOption_jsonStr_map (xs : List String) :
    mapOption jsonStr? (xs.map Json.str) = some xs := by
  induction xs with
  | nil => rfl
  | cons x xs ih => simp [mapOption, ih, jsonStr?]

theorem articleOfJson_articleToJson (a : Article) :
    articleOfJson (articleToJson a) = some a := by
  cases a with
  | mk title author publish_date text top_image link =>
    cases publish_date with
    | none =>
      simp [articleToJson, articleOfJson, List.lookup, jsonStr?, jsonOptStr?,
        jsonStrList?, mapOption_jsonStr_map]
    | some s =>
      simp [articleToJson, articleOfJson, List.lookup, jsonStr?, jsonOptStr?,
        jsonStrList?, mapOption_jsonStr_map]

/-- C9: serializing an article store to JSON and loading it back yields the
same articles with the same field values in the same order. -/
theorem C9_json_round_trip (arts : List Article) :
    storeOfJson (storeToJson arts) = some arts := by
  simp only [storeOfJson, storeToJson]
  induction arts with
  | nil => rfl
  | cons a as ih =>
    simp [mapArticles, articleOfJson_articleToJson, ih]

/-- C4 applied to a concrete two-entry feed with limit 1. -/
theorem C4_feed_fetcher_bounded_sorted_witness :
    (get_links_from_rss [feedEntryB, feedEntryA] 1).length ≤ 1 ∧
    (get_links_from_rss [feedEntryB, feedEntryA] 1).Sorted
      (fun a b => feedKey b ≤ feedKey a) ∧
    (∃ l, List.Perm l [feedEntryB, feedEntryA] ∧
      l.Sorted (fun a b => feedKey b ≤ feedKey a) ∧
      get_links_from_rss [feedEntryB, feedEntryA] 1 = l.take 1) ∧
    (∀ e : FeedEntry, e.published = none → feedKey e = 0) :=
  C4_feed_fetcher_bounded_sorted [feedEntryB, feedEntryA] 1

/-- C5 applied to a concrete candidate list, store and processed set. -/
theorem C5_novelty_filter_exact_witness :
    noveltyFilter [feedEntryA, feedEntryB] [datedArticle] {"https://news.google.com/b"} =
      [feedEntryA, feedEntryB].filter
        (fun l => decide (specNovel [datedArticle] {"https://news.google.com/b"} l)) ∧
    (noveltyFilter [feedEntryA, feedEntryB] [datedArticle]
      {"https://news.google.com/b"}).Sublist [feedEntryA, feedEntryB] ∧
    (∀ l, l ∈ noveltyFilter [feedEntryA, feedEntryB] [datedArticle]
        {"https://news.google.com/b"} ↔
      l ∈ [feedEntryA, feedEntryB] ∧ (∀ a ∈ [datedArticle], a.title ≠ l.title) ∧
        l.link ∉ ({"https://news.google.com/b"} : Finset String)) :=
  C5_novelty_filter_exact [feedEntryA, feedEntryB] [datedArticle]
    {"https://news.google.com/b"}
